import Mathlib

/-!
Verification of the query-AST resolver and dashboard filter auditor of
`src/tools/dashboard-tools.ts` (tools `get_dashboard_queries` and
`audit_dashboard_filters`).

The JavaScript values flowing through that code are modelled by the `Json`
inductive below.  JavaScript runtime behaviour that the source relies on is
modelled explicitly: truthiness (`jsTruthy`), the `typeof x === "object"`
test (`jsIsObjectType`), the `a || b` idiom on strings (`jsOrString`), and
`Object.keys` / `Object.entries` (`jsObjectKeys` / `jsObjectEntries`).
A thrown `TypeError` (calling `.map` / `.forEach` on a truthy non-array) is
modelled as `Option.none`, matching the source's outer try/catch which turns
any exception into failure of the whole tool call.  JavaScript `undefined`
is conflated with `null` in the few spots where the source can store an
undefined member value; no property below depends on the distinction.
-/

namespace MetabaseMCP

/-- A JSON-ish JavaScript value: null, boolean, number, string, array or
object.  Numbers are modelled as integers; the resolver code performs no
arithmetic on them, only equality and `typeof` checks. -/
inductive Json where
  | nul : Json
  | bool (b : Bool) : Json
  | num (n : Int) : Json
  | str (s : String) : Json
  | arr (elems : List Json) : Json
  | obj (entries : List (String × Json)) : Json
deriving Repr

mutual

/-- Structural equality test on `Json`. -/
def Json.beq : Json → Json → Bool
  | .nul, .nul => true
  | .bool a, .bool b => a == b
  | .num a, .num b => a == b
  | .str a, .str b => a == b
  | .arr a, .arr b => Json.beqList a b
  | .obj a, .obj b => Json.beqEntries a b
  | _, _ => false

/-- Structural equality test on lists of `Json`. -/
def Json.beqList : List Json → List Json → Bool
  | [], [] => true
  | x :: xs, y :: ys => Json.beq x y && Json.beqList xs ys
  | _, _ => false

/-- Structural equality test on lists of `Json` object entries. -/
def Json.beqEntries : List (String × Json) → List (String × Json) → Bool
  | [], [] => true
  | (k1, v1) :: xs, (k2, v2) :: ys => k1 == k2 && Json.beq v1 v2 && Json.beqEntries xs ys
  | _, _ => false

end


/-- JavaScript truthiness of a value. -/
def jsTruthy : Json → Bool
  | .nul => false
  | .bool b => b
  | .num n => n != 0
  | .str s => s != ""
  | .arr _ => true
  | .obj _ => true

/-- Whether `typeof v === "object"` holds in JavaScript: true for objects,
arrays and `null`. -/
def jsIsObjectType : Json → Bool
  | .nul => true
  | .arr _ => true
  | .obj _ => true
  | _ => false

/-- Property access `o[k]` on a JavaScript value: `none` when the property is
absent or the value is not an object. -/
def getProp (o : Json) (k : String) : Option Json :=
  match o with
  | .obj kvs => (kvs.find? (fun p => p.1 == k)).map (fun p => p.2)
  | _ => none

/-- The JavaScript idiom `s || fallback` on an optional string: the fallback
is used when the string is absent or empty (both falsy). -/
def jsOrString (s : Option String) (fallback : String) : String :=
  match s with
  | some v => if v = "" then fallback else v
  | none => fallback

/-- `Object.keys` of a JavaScript value: property names of an object, index
strings of an array or string, empty otherwise. -/
def jsObjectKeys : Json → List String
  | .obj kvs => kvs.map (fun p => p.1)
  | .arr xs => (List.range xs.length).map toString
  | .str s => (List.range s.length).map toString
  | _ => []

/-- `Object.entries` of a JavaScript value. -/
def jsObjectEntries : Json → List (String × Json)
  | .obj kvs => kvs
  | .arr xs => (List.range xs.length).map toString |>.zip xs
  | .str s => ((List.range s.length).map toString).zip (s.data.map (fun c => Json.str c.toString))
  | _ => []

/-- An entry of the extractor's `fieldLookup`: the field's name and the
qualified name of its owning table. -/
structure FieldInfo where
  name : String
  table : String
deriving Repr, DecidableEq

/-- The field-reference test of `resolveFieldRef`
(`ref[0] === "field" && typeof ref[1] === "number"`): first element the
string `"field"`, second element a number.  No length bound is checked. -/
def isFieldShaped (xs : List Json) : Bool :=
  (match xs[0]? with
    | some (Json.str s) => s == "field"
    | _ => false)
  && (match xs[1]? with
    | some (Json.num _) => true
    | _ => false)

/-- The numeric second element (`ref[1]`) of a field-shaped array. -/
def fieldIdOf (xs : List Json) : Int :=
  match xs[1]? with
  | some (Json.num id) => id
  | _ => 0

mutual

/-- The `resolveFieldRef` helper of `get_dashboard_queries`
(dashboard-tools.ts:1190-1205): non-arrays pass through; an array whose
first element is the string `"field"` and whose second element is a number
is rewritten to `["field", name]` or `["field", name, opts]`, where the name
comes from the field lookup (`fieldInfo?.name || "field_" + id`) and the
third element `ref[2]` is kept exactly when it is truthy and of object type
(`ref[2] && typeof ref[2] === "object"`); every other array is resolved
element-wise. -/
def resolveFieldRef (fl : Int → Option FieldInfo) : Json → Json
  | .arr xs =>
    if isFieldShaped xs then
      let id := fieldIdOf xs
      let fieldName := jsOrString ((fl id).map FieldInfo.name) ("field_" ++ toString id)
      match xs[2]? with
      | some o =>
        if jsTruthy o && jsIsObjectType o then
          .arr [.str "field", .str fieldName, o]
        else
          .arr [.str "field", .str fieldName]
      | none => .arr [.str "field", .str fieldName]
    else .arr (resolveList fl xs)
  | j => j

/-- Element-wise resolution of an array's elements
(`ref.map((item) => resolveFieldRef(item))`). -/
def resolveList (fl : Int → Option FieldInfo) : List Json → List Json
  | [] => []
  | x :: xs => resolveFieldRef fl x :: resolveList fl xs

end

/-- Set a property on a list of object entries the way JavaScript assignment
does: an existing key keeps its position and gets the new value, a new key is
appended. -/
def setProp (kvs : List (String × Json)) (k : String) (v : Json) : List (String × Json) :=
  if kvs.any (fun p => p.1 == k) then
    kvs.map (fun p => if p.1 == k then (k, v) else p)
  else
    kvs ++ [(k, v)]

/-- Resolution of one entry of `query.joins` (dashboard-tools.ts:1240-1246):
spread the join object, overwrite `source-table` (resolved through
`tableNames` when numeric, kept otherwise) and `condition` (passed through
`resolveFieldRef`).  An absent `source-table` / `condition` member yields the
JavaScript `undefined`, modelled as `null` here. -/
def resolveJoin (tn : Int → Option String) (fl : Int → Option FieldInfo) (j : Json) : Json :=
  let base := match j with
    | .obj kvs => kvs
    | _ => []
  let stVal := match getProp j "source-table" with
    | some (.num id) => Json.str (jsOrString (tn id) ("table_" ++ toString id))
    | some v => v
    | none => Json.nul
  let condVal := resolveFieldRef fl ((getProp j "condition").getD Json.nul)
  .obj (setProp (setProp base "source-table" stVal) "condition" condVal)

/-- The `source-table` contribution of `resolveMbql`
(dashboard-tools.ts:1214-1216): present in the output exactly when the input
member is a truthy number (`query["source-table"] && typeof ... === "number"`),
resolved through `tableNames` with fallback `"table_" + id`. -/
def memberSourceTable (tn : Int → Option String) (q : Json) : List (String × Json) :=
  match getProp q "source-table" with
  | some (.num id) =>
    if id != 0 then
      [("source-table", Json.str (jsOrString (tn id) ("table_" ++ toString id)))]
    else []
  | _ => []

/-- The contribution of an array-valued member of `resolveMbql`
(`aggregation`, `breakout`, `order-by`, `fields`): skipped when absent or
falsy, mapped element-wise through `resolveFieldRef` when an array, and a
thrown `TypeError` (`.map` on a truthy non-array) otherwise, modelled as
`none`. -/
def memberSeq (fl : Int → Option FieldInfo) (q : Json) (key : String) :
    Option (List (String × Json)) :=
  match getProp q key with
  | none => some []
  | some v =>
    if jsTruthy v then
      match v with
      | .arr xs => some [(key, Json.arr (xs.map (resolveFieldRef fl)))]
      | _ => none
    else some []

/-- The `filter` contribution of `resolveMbql` (dashboard-tools.ts:1229-1231):
a truthy filter is passed whole through `resolveFieldRef`. -/
def memberFilter (fl : Int → Option FieldInfo) (q : Json) : List (String × Json) :=
  match getProp q "filter" with
  | some v => if jsTruthy v then [("filter", resolveFieldRef fl v)] else []
  | none => []

/-- The `joins` contribution of `resolveMbql` (dashboard-tools.ts:1239-1247). -/
def memberJoins (tn : Int → Option String) (fl : Int → Option FieldInfo) (q : Json) :
    Option (List (String × Json)) :=
  match getProp q "joins" with
  | none => some []
  | some v =>
    if jsTruthy v then
      match v with
      | .arr js => some [("joins", Json.arr (js.map (resolveJoin tn fl)))]
      | _ => none
    else some []

/-- The `limit` contribution of `resolveMbql` (dashboard-tools.ts:1255):
`if (query.limit) resolved.limit = query.limit` — copied verbatim exactly
when truthy. -/
def memberLimit (q : Json) : List (String × Json) :=
  match getProp q "limit" with
  | some v => if jsTruthy v then [("limit", v)] else []
  | none => []

/-- The `expressions` contribution of `resolveMbql`
(dashboard-tools.ts:1256-1261): when truthy, a fresh object is built from
`Object.entries(query.expressions)` with each value passed through
`resolveFieldRef`. -/
def memberExprs (fl : Int → Option FieldInfo) (q : Json) : List (String × Json) :=
  match getProp q "expressions" with
  | some v =>
    if jsTruthy v then
      [("expressions", Json.obj ((jsObjectEntries v).map (fun p => (p.1, resolveFieldRef fl p.2))))]
    else []
  | none => []

/-- The `resolveMbql` helper of `get_dashboard_queries`
(dashboard-tools.ts:1208-1264): a falsy query is returned unchanged;
otherwise a new object is built from the supported members in source order
(`source-table`, `aggregation`, `breakout`, `filter`, `order-by`, `joins`,
`fields`, `limit`, `expressions`).  `none` models a thrown `TypeError`. -/
def resolveMbql (tn : Int → Option String) (fl : Int → Option FieldInfo) (query : Json) :
    Option Json :=
  if jsTruthy query = false then some query
  else
    match memberSeq fl query "aggregation", memberSeq fl query "breakout",
        memberSeq fl query "order-by", memberJoins tn fl query,
        memberSeq fl query "fields" with
    | some agg, some br, some ob, some js, some fs =>
      some (.obj (memberSourceTable tn query ++ agg ++ br ++ memberFilter fl query
        ++ ob ++ js ++ fs ++ memberLimit query ++ memberExprs fl query))
    | _, _, _, _, _ => none

/-! ### Dashboard query extractor (`get_dashboard_queries`) -/

/-- Result of a successful `getTableQueryMetadata` call, as consumed by the
extractor.  `name`/`schema` use `""` for the falsy cases (absent or empty
string, which `metadata.schema || ""` and `metadata.name || ...` treat
alike); `fields` is the list of `(id, name)` pairs (`metadata.fields || []`). -/
structure TableMeta where
  name : String
  schema : String
  fields : List (Int × String)
deriving Repr, DecidableEq

/-- The qualified name computed for a successfully fetched table
(dashboard-tools.ts:1170-1173): `schema + "." + name` when a schema is
present, with fallback `"table_" + id` for a missing name. -/
def qualifiedName (id : Int) (m : TableMeta) : String :=
  let tableName := if m.name = "" then "table_" ++ toString id else m.name
  if m.schema = "" then tableName else m.schema ++ "." ++ tableName

/-- The name bound to a table id by the fetch loop
(dashboard-tools.ts:1166-1177): the qualified name on success, the
placeholder `"unknown_table_" + id` when the fetch throws. -/
def perIdName (fetch : Int → Option TableMeta) (id : Int) : String :=
  match fetch id with
  | some m => qualifiedName id m
  | none => "unknown_table_" ++ toString id

/-- The `tableNames` record after the fetch loop, as a partial map: one entry
per collected table id. -/
def tableNamesMap (fetch : Int → Option TableMeta) (ids : List Int) :
    Int → Option String :=
  fun id => if id ∈ ids then some (perIdName fetch id) else none

/-- The `fieldLookup` record (dashboard-tools.ts:1180-1187): for every
successfully fetched table, every field id is bound to the field's name and
the owning table's qualified name; a later write overwrites an earlier one.
The source iterates `Object.entries(tableMetadata)` (ascending numeric key
order); this model iterates in collection order, which agrees with the
source whenever field ids do not collide across tables — the domain
guarantee the code relies on. -/
def buildFieldLookup (fetch : Int → Option TableMeta) (ids : List Int) :
    Int → Option FieldInfo :=
  ids.foldl
    (fun acc i =>
      match fetch i with
      | none => acc
      | some m =>
        m.fields.foldl
          (fun acc2 f => fun k =>
            if k = f.1 then some ⟨f.2, qualifiedName i m⟩ else acc2 k)
          acc)
    (fun _ => none)

/-- Append an element to a list unless already present: the effect of
adding to a JavaScript `Set`, preserving first-insertion order. -/
def insertNew {α : Type} [DecidableEq α] (acc : List α) (i : α) : List α :=
  if i ∈ acc then acc else acc ++ [i]

/-- A dashcard as consumed by the extractor: the members the code reads, all
kept as `Json` since the code branches on their runtime shape.  An absent
member is modelled as `Json.nul`, which behaves like the `dc.card || {}` /
`dc.visualization_settings || {}` substitutions under `getProp`. -/
structure ExtractDashcard where
  id : Json
  card_id : Json
  dashboard_tab_id : Json
  visualization_settings : Json
  card : Json
deriving Repr

/-- `dc.card || {}` followed by `card.dataset_query?.query` — the structured
query (if any) of a dashcard, as read by the table-id collection pass. -/
def dashcardQuery (dc : ExtractDashcard) : Option Json :=
  getProp dc.card "dataset_query" |>.bind (fun dq => getProp dq "query")

/-- The table ids contributed by one dashcard's `source-table` member
(dashboard-tools.ts:1150-1152): a truthy number. -/
def sourceTableId (dc : ExtractDashcard) : Option Int :=
  match (dashcardQuery dc).bind (fun q => getProp q "source-table") with
  | some (.num id) => if id != 0 then some id else none
  | _ => none

/-- The table ids contributed by one dashcard's joins
(dashboard-tools.ts:1154-1160): every truthy numeric `joins[i]["source-table"]`.
`none` models the `TypeError` thrown by `query.joins.forEach` when `joins`
is truthy but not an array. -/
def joinTableIds (dc : ExtractDashcard) : Option (List Int) :=
  match (dashcardQuery dc).bind (fun q => getProp q "joins") with
  | none => some []
  | some v =>
    if jsTruthy v then
      match v with
      | .arr js => some (js.filterMap (fun j =>
          match getProp j "source-table" with
          | some (.num id) => if id != 0 then some id else none
          | _ => none))
      | _ => none
    else some []

/-- The table-id collection pass (dashboard-tools.ts:1146-1161): a `Set`
accumulating every truthy numeric `source-table` and join `source-table`
across all dashcards, modelled as a duplicate-free list in first-insertion
order. -/
def collectTableIds (dcs : List ExtractDashcard) : Option (List Int) :=
  dcs.foldl
    (fun acc dc =>
      acc.bind (fun ids =>
        (joinTableIds dc).map (fun js =>
          js.foldl insertNew
            (match sourceTableId dc with
              | some i => insertNew ids i
              | none => ids))))
    (some [])

/-- Every numeric `source-table` or join `source-table` value syntactically
present on a dashcard, zero included: the ids the specification counts as
"referenced". -/
def referencedTableIds (dc : ExtractDashcard) : List Int :=
  (match (dashcardQuery dc).bind (fun q => getProp q "source-table") with
    | some (.num id) => [id]
    | _ => []) ++
  (match (dashcardQuery dc).bind (fun q => getProp q "joins") with
    | some (.arr js) => js.filterMap (fun j =>
        match getProp j "source-table" with
        | some (.num id) => some id
        | _ => none)
    | _ => [])

/-- `o[k]` with JavaScript's `undefined` collapsed to `null`; composed
accesses through it behave exactly like the source's `x || {}` and `x?.y`
chains as far as further property reads are concerned. -/
def jsGet (j : Json) (k : String) : Json :=
  (getProp j k).getD Json.nul

/-- The `v || null` idiom: a falsy value becomes `null`. -/
def jsOrNull (v : Json) : Json :=
  if jsTruthy v then v else Json.nul

/-- The resolved tab name of a dashcard (dashboard-tools.ts:1270):
`dc.dashboard_tab_id ? tabLookup[dc.dashboard_tab_id] : null`. -/
def tabNameOf (tabLookup : Int → Option String) (dc : ExtractDashcard) : Json :=
  if jsTruthy dc.dashboard_tab_id then
    match dc.dashboard_tab_id with
    | .num t => ((tabLookup t).map Json.str).getD Json.nul
    | _ => Json.nul
  else Json.nul

/-- Per-dashcard summary of `get_dashboard_queries`
(dashboard-tools.ts:1267-1311): a falsy `card_id` yields the virtual-card
summary; `dataset_query.type === "native"` yields the native summary with
the raw query (`native.query || null`) and the template-tag names; anything
else yields the MBQL summary built by `resolveMbql`. -/
def summarizeDashcard (tn : Int → Option String) (fl : Int → Option FieldInfo)
    (tabLookup : Int → Option String) (dc : ExtractDashcard) : Option Json :=
  let datasetQuery := jsGet dc.card "dataset_query"
  let tabName := tabNameOf tabLookup dc
  if jsTruthy dc.card_id = false then
    some (.obj [("dashcard_id", dc.id), ("card_id", Json.nul),
      ("card_name", .str "(virtual card)"), ("tab", tabName),
      ("query_type", .str "virtual"),
      ("text", jsOrNull (jsGet dc.visualization_settings "text"))])
  else if Json.beq (jsGet datasetQuery "type") (.str "native") then
    let native := jsGet datasetQuery "native"
    some (.obj [("dashcard_id", dc.id), ("card_id", dc.card_id),
      ("card_name", if jsTruthy (jsGet dc.card "name") then jsGet dc.card "name"
        else .str "(unnamed)"),
      ("tab", tabName),
      ("query_type", .str "native"),
      ("database_id", jsGet datasetQuery "database"),
      ("sql", jsOrNull (jsGet native "query")),
      ("template_tags",
        if jsTruthy (jsGet native "template-tags") then
          .arr ((jsObjectKeys (jsGet native "template-tags")).map Json.str)
        else .arr [])])
  else
    let q := jsGet datasetQuery "query"
    (resolveMbql tn fl (if jsTruthy q then q else .obj [])).map (fun mbql =>
      .obj [("dashcard_id", dc.id), ("card_id", dc.card_id),
        ("card_name", if jsTruthy (jsGet dc.card "name") then jsGet dc.card "name"
          else .str "(unnamed)"),
        ("tab", tabName),
        ("query_type", .str "mbql"),
        ("database_id", jsGet datasetQuery "database"),
        ("mbql", mbql)])

/-- The `tables_used` summary member (dashboard-tools.ts:1314):
`[...new Set(Object.values(tableNames))].sort()` — the de-duplicated,
lexicographically sorted table names of the pass. -/
def tablesUsed (fetch : Int → Option TableMeta) (ids : List Int) : List String :=
  ((ids.map (perIdName fetch)).foldl insertNew []).mergeSort (fun a b => a ≤ b)

/-- The whole extraction pass of `get_dashboard_queries`
(dashboard-tools.ts:1135-1322): collect table ids, build the two lookups,
summarize every dashcard and report the tables used.  `none` models a thrown
exception (the tool call failing). -/
def extractDashboardQueries (fetch : Int → Option TableMeta)
    (tabLookup : Int → Option String) (dcs : List ExtractDashcard) :
    Option (List Json × List String) :=
  (collectTableIds dcs).bind (fun ids =>
    (dcs.mapM
        (summarizeDashcard (tableNamesMap fetch ids) (buildFieldLookup fetch ids)
          tabLookup)).map
      (fun cards => (cards, tablesUsed fetch ids)))

/-! ### Filter connectivity auditor (`audit_dashboard_filters`) -/

/-- One entry of a dashcard's `parameter_mappings`.  `target = none` models
an absent member; `some Json.nul` an explicit null. -/
structure PMapping where
  parameter_id : String
  target : Option Json
deriving Repr

/-- The dimension-target test of the auditor
(`Array.isArray(m.target) && m.target[0] === "dimension"`). -/
def isDimensionTarget : Json → Bool
  | .arr xs =>
    match xs[0]? with
    | some (Json.str s) => s == "dimension"
    | _ => false
  | _ => false

/-- Whether some element of a `["dimension", ...]` target is a non-null
object bearing a `stage-number` key (dashboard-tools.ts:1373-1375):
`typeof t === "object" && t !== null && "stage-number" in t`. -/
def hasStageNumber : Json → Bool
  | .arr xs => xs.any (fun e =>
      match e with
      | .obj kvs => kvs.any (fun p => p.1 == "stage-number")
      | _ => false)
  | _ => false

/-- The structural errors of one mapping entry
(dashboard-tools.ts:1368-1380): a falsy `target` is reported as missing; a
`["dimension", ...]` target without a `stage-number` object is reported as
missing its stage number; nothing else is flagged. -/
def mappingEntryErrors (m : PMapping) : List String :=
  match m.target with
  | none => ["Parameter \x27" ++ m.parameter_id ++ "\x27 has no target"]
  | some t =>
    if jsTruthy t = false then
      ["Parameter \x27" ++ m.parameter_id ++ "\x27 has no target"]
    else if isDimensionTarget t then
      if hasStageNumber t then []
      else ["Parameter \x27" ++ m.parameter_id
        ++ "\x27 missing stage-number (MBQL cards require this)"]
    else []

/-- All structural errors of a mapping list, in order. -/
def mappingErrors (ms : List PMapping) : List String :=
  ms.flatMap mappingEntryErrors

/-- A dashcard as consumed by the auditor. -/
structure AuditDashcard where
  id : Json
  card_id : Json
  card : Json
  parameter_mappings : Option (List PMapping)
deriving Repr

/-- One row of the audit report. -/
structure CardAuditEntry where
  dashcard_id : Json
  card_id : Json
  card_name : Json
  source_table : Json
  is_native_query : Bool
  connected_params : List String
  missing_params : List String
  errors : List String
deriving Repr

/-- The per-dashcard audit of `audit_dashboard_filters`
(dashboard-tools.ts:1360-1398): `connected_params` are the mapped parameter
ids, `missing_params` the dashboard parameters not among them (dashboard
order preserved), `errors` the structural errors of the mappings. -/
def auditCard (parameterIds : List String) (dc : AuditDashcard) : CardAuditEntry :=
  let ms := dc.parameter_mappings.getD []
  let connected := ms.map PMapping.parameter_id
  { dashcard_id := dc.id
    card_id := dc.card_id
    card_name := if jsTruthy (jsGet dc.card "name") then jsGet dc.card "name"
      else Json.str "(virtual card)"
    source_table := jsOrNull (jsGet (jsGet (jsGet dc.card "dataset_query") "query") "source-table")
    is_native_query := Json.beq (jsGet (jsGet dc.card "dataset_query") "type") (Json.str "native")
    connected_params := connected
    missing_params := parameterIds.filter (fun pid => !(connected.contains pid))
    errors := mappingErrors ms }

/-- The full audit list (`all_cards`). -/
def auditReport (parameterIds : List String) (dcs : List AuditDashcard) :
    List CardAuditEntry :=
  dcs.map (auditCard parameterIds)

/-- The filtered audit list (`cards_needing_attention`,
dashboard-tools.ts:1401-1403): cards with missing parameters or structural
errors. -/
def cardsWithIssues (parameterIds : List String) (dcs : List AuditDashcard) :
    List CardAuditEntry :=
  (auditReport parameterIds dcs).filter
    (fun c => !c.missing_params.isEmpty || !c.errors.isEmpty)


/-! ### Shape predicate used for the resolver stability analysis -/

mutual

/-- Trees in which no field-reference node (an array passing
`isFieldShaped`) carries an array in its options slot `ref[2]`.  On such
trees one resolution pass produces a tree that a second pass leaves
unchanged. -/
def noSeqOpts : Json → Bool
  | .arr xs =>
    if isFieldShaped xs then
      match xs[2]? with
      | some (Json.arr _) => false
      | _ => true
    else noSeqOptsList xs
  | _ => true

/-- `noSeqOpts` for every element of a list. -/
def noSeqOptsList : List Json → Bool
  | [] => true
  | x :: xs => noSeqOpts x && noSeqOptsList xs

end

/-! ## Theorems -/

mutual

theorem Json.beq_iff : ∀ (a b : Json), (Json.beq a b = true) ↔ a = b
  | .nul, b => by cases b <;> simp [Json.beq]
  | .bool a, b => by cases b <;> simp [Json.beq]
  | .num a, b => by cases b <;> simp [Json.beq]
  | .str a, b => by cases b <;> simp [Json.beq]
  | .arr xs, b => by
    cases b <;> simp [Json.beq]
    exact Json.beqList_iff xs _
  | .obj kvs, b => by
    cases b <;> simp [Json.beq]
    exact Json.beqEntries_iff kvs _

theorem Json.beqList_iff : ∀ (a b : List Json), (Json.beqList a b = true) ↔ a = b
  | [], b => by cases b <;> simp [Json.beqList]
  | x :: xs, b => by
    cases b with
    | nil => simp [Json.beqList]
    | cons y ys =>
      simp [Json.beqList, Json.beq_iff x y, Json.beqList_iff xs ys]

theorem Json.beqEntries_iff :
    ∀ (a b : List (String × Json)), (Json.beqEntries a b = true) ↔ a = b
  | [], b => by cases b <;> simp [Json.beqEntries]
  | (k1, v1) :: xs, b => by
    cases b with
    | nil => simp [Json.beqEntries]
    | cons y ys =>
      cases y with
      | mk k2 v2 =>
        simp [Json.beqEntries, Json.beq_iff v1 v2, Json.beqEntries_iff xs ys, Prod.ext_iff]

end

instance : DecidableEq Json := fun a b =>
  decidable_of_iff (Json.beq a b = true) (Json.beq_iff a b)

instance : DecidableEq Json := fun a b =>
  decidable_of_iff (Json.beq a b = true) (Json.beq_iff a b)

theorem resolveList_eq_map (fl : Int → Option FieldInfo) :
    ∀ xs : List Json, resolveList fl xs = xs.map (resolveFieldRef fl)
  | [] => rfl
  | x :: xs => by simp [resolveList, resolveList_eq_map fl xs]

/-- An array that fails the field-reference test is resolved element-wise. -/
theorem resolveFieldRef_generic (fl : Int → Option FieldInfo) (xs : List Json)
    (h : isFieldShaped xs = false) :
    resolveFieldRef fl (.arr xs) = .arr (xs.map (resolveFieldRef fl)) := by
  rw [resolveFieldRef, if_neg (by simp [h]), resolveList_eq_map]

/-- Unfolding of `resolveFieldRef` on a field-shaped array. -/
theorem resolveFieldRef_field (fl : Int → Option FieldInfo) (id : Int) (rest : List Json) :
    resolveFieldRef fl (.arr (.str "field" :: .num id :: rest)) =
      (let fieldName := jsOrString ((fl id).map FieldInfo.name) ("field_" ++ toString id)
       match rest[0]? with
       | some o =>
         if jsTruthy o && jsIsObjectType o then
           .arr [.str "field", .str fieldName, o]
         else .arr [.str "field", .str fieldName]
       | none => .arr [.str "field", .str fieldName]) := by
  rw [resolveFieldRef, if_pos (by simp [isFieldShaped])]
  simp [fieldIdOf]

/-- Resolving an array always yields an array. -/
theorem resolveFieldRef_arr (fl : Int → Option FieldInfo) (xs : List Json) :
    ∃ ys, resolveFieldRef fl (.arr xs) = .arr ys := by
  by_cases hf : isFieldShaped xs = true
  · rw [resolveFieldRef, if_pos hf]
    cases h2 : xs[2]? with
    | none => simp only [h2]; exact ⟨_, rfl⟩
    | some o =>
      simp only [h2]
      by_cases hk : (jsTruthy o && jsIsObjectType o) = true
      · rw [if_pos hk]; exact ⟨_, rfl⟩
      · rw [if_neg hk]; exact ⟨_, rfl⟩
  · rw [resolveFieldRef_generic _ _ (by simpa using hf)]; exact ⟨_, rfl⟩

/-- Resolution never turns a non-string into a string. -/
theorem resolveFieldRef_str_inv (fl : Int → Option FieldInfo) (x : Json) (s : String)
    (h : resolveFieldRef fl x = .str s) : x = .str s := by
  cases x with
  | arr xs =>
    obtain ⟨ys, hy⟩ := resolveFieldRef_arr fl xs
    rw [hy] at h
    exact absurd h (by simp)
  | nul => exact h
  | bool b => exact h
  | num n => exact h
  | str t => exact h
  | obj kvs => exact h

/-- Resolution never turns a non-number into a number. -/
theorem resolveFieldRef_num_inv (fl : Int → Option FieldInfo) (x : Json) (n : Int)
    (h : resolveFieldRef fl x = .num n) : x = .num n := by
  cases x with
  | arr xs =>
    obtain ⟨ys, hy⟩ := resolveFieldRef_arr fl xs
    rw [hy] at h
    exact absurd h (by simp)
  | nul => exact h
  | bool b => exact h
  | num m => exact h
  | str t => exact h
  | obj kvs => exact h

/-- Element-wise resolution cannot create a field-shaped array out of a
generic one. -/
theorem isFieldShaped_map (fl : Int → Option FieldInfo) (xs : List Json)
    (h : isFieldShaped xs = false) :
    isFieldShaped (xs.map (resolveFieldRef fl)) = false := by
  cases xs with
  | nil => simpa using h
  | cons x rest =>
    cases rest with
    | nil => simp [isFieldShaped]
    | cons y rest2 =>
      simp only [List.map_cons]
      simp only [isFieldShaped, List.getElem?_cons_zero, List.getElem?_cons_succ] at h ⊢
      by_contra hc
      rw [Bool.not_eq_false, Bool.and_eq_true] at hc
      obtain ⟨h1, h2⟩ := hc
      have hx : x = .str "field" := by
        cases hx0 : resolveFieldRef fl x with
        | str s =>
          rw [hx0] at h1
          simp only [beq_iff_eq] at h1
          subst h1
          exact resolveFieldRef_str_inv fl x "field" hx0
        | nul => rw [hx0] at h1; simp at h1
        | bool b => rw [hx0] at h1; simp at h1
        | num n => rw [hx0] at h1; simp at h1
        | arr l => rw [hx0] at h1; simp at h1
        | obj l => rw [hx0] at h1; simp at h1
      have hy : ∃ m, y = .num m := by
        cases hy0 : resolveFieldRef fl y with
        | num m => exact ⟨m, resolveFieldRef_num_inv fl y m hy0⟩
        | nul => rw [hy0] at h2; simp at h2
        | bool b => rw [hy0] at h2; simp at h2
        | str s => rw [hy0] at h2; simp at h2
        | arr l => rw [hy0] at h2; simp at h2
        | obj l => rw [hy0] at h2; simp at h2
      obtain ⟨m, hy⟩ := hy
      rw [hx, hy] at h
      simp at h


theorem noSeqOptsList_iff : ∀ xs : List Json,
    noSeqOptsList xs = true ↔ ∀ x ∈ xs, noSeqOpts x = true
  | [] => by simp [noSeqOptsList]
  | x :: xs => by
    simp [noSeqOptsList, noSeqOptsList_iff xs]

/-- A scalar or object passes through `resolveFieldRef` unchanged. -/
theorem resolveFieldRef_scalar (fl : Int → Option FieldInfo) (x : Json)
    (h : ∀ ys, x ≠ Json.arr ys) : resolveFieldRef fl x = x := by
  cases x with
  | arr ys => exact absurd rfl (h ys)
  | nul => rfl
  | bool b => rfl
  | num n => rfl
  | str s => rfl
  | obj kvs => rfl

theorem resolveFieldRef_idem (fl : Int → Option FieldInfo) :
    ∀ t : Json, noSeqOpts t = true →
      resolveFieldRef fl (resolveFieldRef fl t) = resolveFieldRef fl t := by
  intro t
  generalize hn : sizeOf t = n
  induction n using Nat.strong_induction_on generalizing t with
  | _ n IH =>
  cases t with
  | nul => intro _; rfl
  | bool b => intro _; rfl
  | num m => intro _; rfl
  | str s => intro _; rfl
  | obj kvs => intro _; rfl
  | arr xs =>
    intro ht
    by_cases hf : isFieldShaped xs = true
    · rw [resolveFieldRef, if_pos hf]
      have hno : ∀ o ∈ xs[2]?, ∀ ys, o ≠ Json.arr ys := by
        intro o ho ys hoe
        rw [noSeqOpts, if_pos hf] at ht
        rcases h2 : xs[2]? with _ | o2
        · rw [h2] at ho; simp at ho
        · rw [h2] at ho ht
          simp at ho
          subst ho
          rw [hoe] at ht
          simp at ht
      cases h2 : xs[2]? with
      | none =>
        simp only [h2]
        rw [resolveFieldRef_generic _ _ (by simp [isFieldShaped])]
        simp [resolveFieldRef]
      | some o =>
        simp only [h2]
        have ho : ∀ ys, o ≠ Json.arr ys := hno o (by simp [h2]) 
        by_cases hk : (jsTruthy o && jsIsObjectType o) = true
        · rw [if_pos hk]
          rw [resolveFieldRef_generic _ _ (by simp [isFieldShaped])]
          simp [resolveFieldRef, resolveFieldRef_scalar fl o ho]
        · rw [if_neg hk]
          rw [resolveFieldRef_generic _ _ (by simp [isFieldShaped])]
          simp [resolveFieldRef]
    · replace hf : isFieldShaped xs = false := by simpa using hf
      rw [resolveFieldRef_generic _ _ hf,
        resolveFieldRef_generic _ _ (isFieldShaped_map fl xs hf), List.map_map]
      refine congrArg Json.arr (List.map_congr_left ?_)
      intro x hx
      have hsz : sizeOf x < n := by
        have h1 := List.sizeOf_lt_of_mem hx
        have h2 : sizeOf (Json.arr xs) = 1 + sizeOf xs := by simp
        omega
      have hno : noSeqOpts x = true := by
        rw [noSeqOpts, if_neg (by simp [hf])] at ht
        exact (noSeqOptsList_iff xs).mp ht x hx
      exact IH (sizeOf x) hsz x rfl hno


/-! ## Claim theorems -/

/-- C1 counterexample: the claim fails when the looked-up field name is the
empty string.  With field 10 bound to name `""`, the source computes
`fieldInfo?.name || "field_" + id` and emits the placeholder `"field_10"`,
not the looked-up name `""` that the claim requires. -/
theorem C1_counterexample :
    resolveFieldRef (fun i => if i = 10 then some ⟨"", "t"⟩ else none)
        (.arr [.str "field", .num 10, .obj [("temporal-unit", .str "month")]])
      ≠ .arr [.str "field", .str "", .obj [("temporal-unit", .str "month")]]
    ∧ resolveFieldRef (fun i => if i = 10 then some ⟨"", "t"⟩ else none)
        (.arr [.str "field", .num 10, .obj [("temporal-unit", .str "month")]])
      = .arr [.str "field", .str "field_10", .obj [("temporal-unit", .str "month")]] := by
  constructor
  · decide
  · decide

/-- C1 (amended): for a field id mapped to a non-empty name, resolving
`["field", id, opts]` with `opts` a non-null object yields the three-element
`["field", name, opts]` with `opts` unchanged, and resolving
`["field", id, null]` or the two-element `["field", id]` yields the
two-element `["field", name]` — the options slot is never fabricated and a
present non-null object options slot is never dropped. -/
theorem C1_field_arity (fl : Int → Option FieldInfo) (id : Int) (info : FieldInfo)
    (h : fl id = some info) (hn : info.name ≠ "") :
    (∀ kvs, resolveFieldRef fl (.arr [.str "field", .num id, .obj kvs])
        = .arr [.str "field", .str info.name, .obj kvs])
    ∧ resolveFieldRef fl (.arr [.str "field", .num id, .nul])
        = .arr [.str "field", .str info.name]
    ∧ resolveFieldRef fl (.arr [.str "field", .num id])
        = .arr [.str "field", .str info.name] := by
  refine ⟨fun kvs => ?_, ?_, ?_⟩ <;>
    rw [resolveFieldRef_field] <;>
    simp [jsOrString, h, hn, jsTruthy, jsIsObjectType]

/-- C1 witness: the amended theorem applied to field 10 named
`"CREATED_AT"` with a `temporal-unit` options object. -/
theorem C1_field_arity_witness :
    resolveFieldRef (fun i => if i = 10 then some ⟨"CREATED_AT", "public.orders"⟩ else none)
        (.arr [.str "field", .num 10, .obj [("temporal-unit", .str "month")]])
      = .arr [.str "field", .str "CREATED_AT", .obj [("temporal-unit", .str "month")]] :=
  (C1_field_arity (fun i => if i = 10 then some ⟨"CREATED_AT", "public.orders"⟩ else none)
    10 ⟨"CREATED_AT", "public.orders"⟩ (by decide) (by decide)).1 _

/-- C2 counterexample: a four-element sequence with head `"field"` and a
numeric second element is NOT resolved generically as the claim requires —
the source applies the field-reference rewrite (it never checks the length)
and drops the elements past the options slot. -/
theorem C2_counterexample :
    resolveFieldRef (fun _ => none) (.arr [.str "field", .num 1, .nul, .str "x"])
      = .arr [.str "field", .str "field_1"]
    ∧ resolveFieldRef (fun _ => none) (.arr [.str "field", .num 1, .nul, .str "x"])
      ≠ .arr ([.str "field", .num 1, .nul, .str "x"].map (resolveFieldRef (fun _ => none))) := by
  constructor
  · decide
  · decide

/-- C2 (amended): a sequence is treated as a field-reference node exactly
when its first element is the literal `"field"` and its second element is a
number, regardless of length — elements past the third are ignored (only
`ref[2]` can survive as the options slot) — and every sequence failing that
test is resolved generically by independently recursing into every element,
preserving its length and structure. -/
theorem C2_field_detection (fl : Int → Option FieldInfo) :
    (∀ (id : Int) (rest : List Json),
      resolveFieldRef fl (.arr (.str "field" :: .num id :: rest))
        = resolveFieldRef fl (.arr (.str "field" :: .num id :: rest.take 1)))
    ∧ ∀ xs : List Json, isFieldShaped xs = false →
        resolveFieldRef fl (.arr xs) = .arr (xs.map (resolveFieldRef fl)) := by
  constructor
  · intro id rest
    rw [resolveFieldRef_field, resolveFieldRef_field]
    cases rest <;> simp
  · intro xs h
    exact resolveFieldRef_generic fl xs h

/-- C2 witness: the amended theorem evaluated on the four-element node of
the counterexample (length is ignored, tail dropped) and on a generic
`["and", ...]` node (element-wise recursion). -/
theorem C2_field_detection_witness :
    resolveFieldRef (fun _ => none) (.arr [.str "field", .num 1, .nul, .str "x"])
      = resolveFieldRef (fun _ => none) (.arr [.str "field", .num 1, .nul])
    ∧ resolveFieldRef (fun _ => none) (.arr [.str "and", .arr [.str "field", .num 2]])
      = .arr ([.str "and", .arr [.str "field", .num 2]].map (resolveFieldRef (fun _ => none))) :=
  ⟨(C2_field_detection (fun _ => none)).1 1 [.nul, .str "x"],
    (C2_field_detection (fun _ => none)).2 [.str "and", .arr [.str "field", .num 2]] (by decide)⟩

/-- C10 counterexample: resolution is not idempotent on every tree.  A field
reference whose options slot is itself an unresolved field reference keeps
that array verbatim in the first pass (`ref[2] && typeof ref[2] === "object"`
accepts arrays), and the second pass then rewrites inside it. -/
theorem C10_counterexample :
    resolveFieldRef (fun _ => none)
        (resolveFieldRef (fun _ => none)
          (.arr [.str "field", .num 1, .arr [.str "field", .num 2]]))
      ≠ resolveFieldRef (fun _ => none)
          (.arr [.str "field", .num 1, .arr [.str "field", .num 2]]) := by
  decide

/-- C10 (amended): the node resolver is idempotent on every tree in which no
field-reference node carries a sequence in its options slot (in particular on
all trees whose options slots are objects or null): a resolved field
reference carries a string in its second slot and is thereafter treated as a
generic sequence whose elements are stable. -/
theorem C10_resolve_idempotent (fl : Int → Option FieldInfo) (t : Json)
    (h : noSeqOpts t = true) :
    resolveFieldRef fl (resolveFieldRef fl t) = resolveFieldRef fl t :=
  resolveFieldRef_idem fl t h

/-- C10 witness: idempotence evaluated on a nested filter tree. -/
theorem C10_resolve_idempotent_witness :
    resolveFieldRef (fun _ => none)
        (resolveFieldRef (fun _ => none)
          (.arr [.str "and", .arr [.str "=", .arr [.str "field", .num 10, .nul], .str "active"],
            .arr [.str "field", .num 20, .obj [("binning", .obj [])]]]))
      = resolveFieldRef (fun _ => none)
          (.arr [.str "and", .arr [.str "=", .arr [.str "field", .num 10, .nul], .str "active"],
            .arr [.str "field", .num 20, .obj [("binning", .obj [])]]]) :=
  C10_resolve_idempotent (fun _ => none) _ (by decide)


theorem getProp_cons_self (k : String) (v : Json) (l : List (String × Json)) :
    getProp (.obj ((k, v) :: l)) k = some v := by
  simp [getProp]

theorem getProp_cons_ne (k k2 : String) (v : Json) (l : List (String × Json))
    (h : (k2 == k) = false) :
    getProp (.obj ((k2, v) :: l)) k = getProp (.obj l) k := by
  simp [getProp, List.find?_cons, h]

/-- `resolveMbql` on a truthy query either fails or returns the object built
from the nine member contributions. -/
theorem resolveMbql_some_inv (tn : Int → Option String) (fl : Int → Option FieldInfo)
    (q out : Json) (hq : jsTruthy q = true) (hr : resolveMbql tn fl q = some out) :
    ∃ agg br ob js fs,
      memberSeq fl q "aggregation" = some agg ∧ memberSeq fl q "breakout" = some br ∧
      memberSeq fl q "order-by" = some ob ∧ memberJoins tn fl q = some js ∧
      memberSeq fl q "fields" = some fs ∧
      out = .obj (memberSourceTable tn q ++ agg ++ br ++ memberFilter fl q
        ++ ob ++ js ++ fs ++ memberLimit q ++ memberExprs fl q) := by
  rw [resolveMbql, if_neg (by simp [hq])] at hr
  cases ha : memberSeq fl q "aggregation" with
  | none => rw [ha] at hr; simp at hr
  | some agg =>
  cases hb : memberSeq fl q "breakout" with
  | none => rw [ha, hb] at hr; simp at hr
  | some br =>
  cases ho : memberSeq fl q "order-by" with
  | none => rw [ha, hb, ho] at hr; simp at hr
  | some ob =>
  cases hj : memberJoins tn fl q with
  | none => rw [ha, hb, ho, hj] at hr; simp at hr
  | some js =>
  cases hf : memberSeq fl q "fields" with
  | none => rw [ha, hb, ho, hj, hf] at hr; simp at hr
  | some fs =>
    rw [ha, hb, ho, hj, hf] at hr
    simp only [Option.some.injEq] at hr
    exact ⟨agg, br, ob, js, fs, rfl, rfl, rfl, rfl, rfl, hr.symm⟩


theorem getProp_append_skip (l1 l2 : List (String × Json)) (k : String)
    (h : ∀ p ∈ l1, (p.1 == k) = false) :
    getProp (.obj (l1 ++ l2)) k = getProp (.obj l2) k := by
  simp only [getProp, List.find?_append]
  rw [List.find?_eq_none.mpr (by intro p hp; simp [h p hp])]
  simp

theorem getProp_obj_none (l : List (String × Json)) (k : String)
    (h : ∀ p ∈ l, (p.1 == k) = false) :
    getProp (.obj l) k = none := by
  simp only [getProp]
  rw [List.find?_eq_none.mpr (by intro p hp; simp [h p hp])]
  rfl

theorem memberSourceTable_mem (tn : Int → Option String) (q : Json) (p : String × Json)
    (hp : p ∈ memberSourceTable tn q) :
    p.1 = "source-table" ∧ (getProp q "source-table").isSome := by
  unfold memberSourceTable at hp
  rcases h : getProp q "source-table" with _ | v
  · rw [h] at hp; simp at hp
  · rw [h] at hp
    cases v <;> simp at hp
    rename_i n
    rcases hp with ⟨hn, hp⟩
    rw [hp]
    simp [h]

theorem memberSeq_mem (fl : Int → Option FieldInfo) (q : Json) (key : String)
    (l : List (String × Json)) (hl : memberSeq fl q key = some l)
    (p : String × Json) (hp : p ∈ l) :
    p.1 = key ∧ (getProp q key).isSome := by
  unfold memberSeq at hl
  rcases h : getProp q key with _ | v
  · rw [h] at hl
    simp at hl
    subst hl
    simp at hp
  · rw [h] at hl
    dsimp only at hl
    by_cases htr : jsTruthy v = true
    · rw [if_pos htr] at hl
      cases v <;> simp at hl
      subst hl
      simp at hp
      rw [hp]
      simp [h]
    · rw [if_neg htr] at hl
      simp at hl
      subst hl
      simp at hp

theorem memberFilter_mem (fl : Int → Option FieldInfo) (q : Json) (p : String × Json)
    (hp : p ∈ memberFilter fl q) :
    p.1 = "filter" ∧ (getProp q "filter").isSome := by
  unfold memberFilter at hp
  rcases h : getProp q "filter" with _ | v
  · rw [h] at hp; simp at hp
  · rw [h] at hp
    dsimp only at hp
    by_cases htr : jsTruthy v = true
    · rw [if_pos htr] at hp
      simp at hp
      rw [hp]
      simp [h]
    · rw [if_neg htr] at hp
      simp at hp

theorem memberJoins_mem (tn : Int → Option String) (fl : Int → Option FieldInfo)
    (q : Json) (l : List (String × Json)) (hl : memberJoins tn fl q = some l)
    (p : String × Json) (hp : p ∈ l) :
    p.1 = "joins" ∧ (getProp q "joins").isSome := by
  unfold memberJoins at hl
  rcases h : getProp q "joins" with _ | v
  · rw [h] at hl
    simp at hl
    subst hl
    simp at hp
  · rw [h] at hl
    dsimp only at hl
    by_cases htr : jsTruthy v = true
    · rw [if_pos htr] at hl
      cases v <;> simp at hl
      subst hl
      simp at hp
      rw [hp]
      simp [h]
    · rw [if_neg htr] at hl
      simp at hl
      subst hl
      simp at hp

theorem memberLimit_mem (q : Json) (p : String × Json)
    (hp : p ∈ memberLimit q) :
    p.1 = "limit" ∧ (getProp q "limit").isSome := by
  unfold memberLimit at hp
  rcases h : getProp q "limit" with _ | v
  · rw [h] at hp; simp at hp
  · rw [h] at hp
    dsimp only at hp
    by_cases htr : jsTruthy v = true
    · rw [if_pos htr] at hp
      simp at hp
      rw [hp]
      simp [h]
    · rw [if_neg htr] at hp
      simp at hp

theorem memberExprs_mem (fl : Int → Option FieldInfo) (q : Json) (p : String × Json)
    (hp : p ∈ memberExprs fl q) :
    p.1 = "expressions" ∧ (getProp q "expressions").isSome := by
  unfold memberExprs at hp
  rcases h : getProp q "expressions" with _ | v
  · rw [h] at hp; simp at hp
  · rw [h] at hp
    dsimp only at hp
    by_cases htr : jsTruthy v = true
    · rw [if_pos htr] at hp
      simp at hp
      rw [hp]
      simp [h]
    · rw [if_neg htr] at hp
      simp at hp


/-- A value with a property is an object, hence truthy. -/
theorem jsTruthy_of_getProp (q : Json) (k : String) (v : Json)
    (h : getProp q k = some v) : jsTruthy q = true := by
  cases q
  case obj entries => simp [jsTruthy]
  all_goals simp [getProp] at h

/-- C6 counterexample: a `source-table` of `0` is dropped entirely — the
truthiness guard `query["source-table"] && typeof ... === "number"` skips the
member, so the resolved query carries no `source-table` at all instead of the
`"table_0"` the claim requires for every numeric id absent from the lookup. -/
theorem C6_counterexample :
    resolveMbql (fun _ => none) (fun _ => none) (.obj [("source-table", .num 0)])
      = some (.obj [])
    ∧ getProp (.obj []) "source-table" = none := by
  constructor
  · decide
  · decide

/-- C6 (amended): a field reference whose id is absent from the field lookup
resolves to the placeholder `["field", "field_" + id]`, for every id; a
nonzero numeric `source-table` id absent from the table-name lookup resolves
to `"table_" + id` (a zero id is dropped from the output entirely). -/
theorem C6_unknown_id_fallback (fl : Int → Option FieldInfo) (tn : Int → Option String)
    (id : Int) (hfl : fl id = none) :
    resolveFieldRef fl (.arr [.str "field", .num id])
        = .arr [.str "field", .str ("field_" ++ toString id)]
    ∧ (∀ q out, tn id = none → id ≠ 0 → getProp q "source-table" = some (.num id) →
        resolveMbql tn fl q = some out →
        getProp out "source-table" = some (.str ("table_" ++ toString id))) := by
  constructor
  · rw [resolveFieldRef_field]
    simp [jsOrString, hfl]
  · intro q out htn h0 hst hr
    obtain ⟨agg, br, ob, js, fs, ha, hb, ho, hj, hf, rfl⟩ :=
      resolveMbql_some_inv tn fl q out (jsTruthy_of_getProp q _ _ hst) hr
    have hm1 : memberSourceTable tn q
        = [("source-table", Json.str ("table_" ++ toString id))] := by
      unfold memberSourceTable
      rw [hst]
      simp [h0, jsOrString, htn]
    rw [hm1]
    exact getProp_cons_self _ _ _

/-- C6 witness: field 999 with an empty lookup resolves to `"field_999"`,
and `source-table: 777` with an empty table lookup resolves to
`"table_777"`. -/
theorem C6_unknown_id_fallback_witness :
    resolveFieldRef (fun _ => none) (.arr [.str "field", .num 999])
        = .arr [.str "field", .str "field_999"]
    ∧ getProp (.obj [("source-table", .str "table_777")]) "source-table"
        = some (.str "table_777") :=
  ⟨(C6_unknown_id_fallback (fun _ => none) (fun _ => none) 999 rfl).1,
    (C6_unknown_id_fallback (fun _ => none) (fun _ => none) 777 rfl).2
      (.obj [("source-table", .num 777)]) (.obj [("source-table", .str "table_777")])
      rfl (by decide) (by decide) (by decide)⟩

/-- C9 counterexample: `limit: 0` is present on the input but dropped from
the output — `if (query.limit)` is a truthiness test, so the claim's
"copied verbatim whenever present, for every numeric value" fails at 0. -/
theorem C9_counterexample :
    resolveMbql (fun _ => none) (fun _ => none) (.obj [("limit", .num 0)])
      = some (.obj [])
    ∧ getProp (.obj [("limit", .num 0)]) "limit" = some (.num 0) := by
  constructor
  · decide
  · decide

/-- C9 (amended): the resolved query contains only members actually present
on the input (no key is invented), and the `limit` member is copied verbatim
exactly when it is present with a nonzero (truthy) value — a present
`limit: 0` is dropped. -/
theorem C9_member_narrowing (tn : Int → Option String) (fl : Int → Option FieldInfo)
    (q out : Json) (hr : resolveMbql tn fl q = some out) :
    (∀ k, (getProp out k).isSome → (getProp q k).isSome)
    ∧ (∀ n : Int, getProp q "limit" = some (.num n) → n ≠ 0 →
        getProp out "limit" = some (.num n))
    ∧ (getProp q "limit" = some (.num 0) → getProp out "limit" = none) := by
  by_cases hq : jsTruthy q = true
  case neg =>
    rw [resolveMbql, if_pos (by simpa using hq)] at hr
    simp only [Option.some.injEq] at hr
    subst hr
    refine ⟨fun k hk => hk, fun n hl _ => ?_, fun hl => ?_⟩ <;>
    · exact absurd (jsTruthy_of_getProp q _ _ hl) hq
  case pos =>
    obtain ⟨agg, br, ob, js, fs, ha, hb, ho, hj, hf, rfl⟩ :=
      resolveMbql_some_inv tn fl q out hq hr
    refine ⟨?_, ?_, ?_⟩
    · intro k hk
      simp only [getProp, Option.isSome_map'] at hk
      obtain ⟨p, hpL, hpk⟩ := List.find?_isSome.mp hk
      simp only [beq_iff_eq] at hpk
      subst hpk
      simp only [List.append_assoc] at hpL
      rcases List.mem_append.mp hpL with h | h
      · exact (memberSourceTable_mem tn q p h).1 ▸ (memberSourceTable_mem tn q p h).2
      rcases List.mem_append.mp h with h | h
      · exact (memberSeq_mem fl q _ agg ha p h).1 ▸ (memberSeq_mem fl q _ agg ha p h).2
      rcases List.mem_append.mp h with h | h
      · exact (memberSeq_mem fl q _ br hb p h).1 ▸ (memberSeq_mem fl q _ br hb p h).2
      rcases List.mem_append.mp h with h | h
      · exact (memberFilter_mem fl q p h).1 ▸ (memberFilter_mem fl q p h).2
      rcases List.mem_append.mp h with h | h
      · exact (memberSeq_mem fl q _ ob ho p h).1 ▸ (memberSeq_mem fl q _ ob ho p h).2
      rcases List.mem_append.mp h with h | h
      · exact (memberJoins_mem tn fl q js hj p h).1 ▸ (memberJoins_mem tn fl q js hj p h).2
      rcases List.mem_append.mp h with h | h
      · exact (memberSeq_mem fl q _ fs hf p h).1 ▸ (memberSeq_mem fl q _ fs hf p h).2
      rcases List.mem_append.mp h with h | h
      · exact (memberLimit_mem q p h).1 ▸ (memberLimit_mem q p h).2
      · exact (memberExprs_mem fl q p h).1 ▸ (memberExprs_mem fl q p h).2
    · intro n hl hn
      simp only [List.append_assoc]
      rw [getProp_append_skip _ _ "limit" (by
          intro p hp
          rw [(memberSourceTable_mem tn q p hp).1]; decide),
        getProp_append_skip _ _ "limit" (by
          intro p hp
          rw [(memberSeq_mem fl q _ agg ha p hp).1]; decide),
        getProp_append_skip _ _ "limit" (by
          intro p hp
          rw [(memberSeq_mem fl q _ br hb p hp).1]; decide),
        getProp_append_skip _ _ "limit" (by
          intro p hp
          rw [(memberFilter_mem fl q p hp).1]; decide),
        getProp_append_skip _ _ "limit" (by
          intro p hp
          rw [(memberSeq_mem fl q _ ob ho p hp).1]; decide),
        getProp_append_skip _ _ "limit" (by
          intro p hp
          rw [(memberJoins_mem tn fl q js hj p hp).1]; decide),
        getProp_append_skip _ _ "limit" (by
          intro p hp
          rw [(memberSeq_mem fl q _ fs hf p hp).1]; decide)]
      have hml : memberLimit q = [("limit", Json.num n)] := by
        unfold memberLimit
        rw [hl]
        simp [jsTruthy, hn]
      rw [hml]
      exact getProp_cons_self _ _ _
    · intro hl
      apply getProp_obj_none
      intro p hp
      have hml : memberLimit q = [] := by
        unfold memberLimit
        rw [hl]
        simp [jsTruthy]
      simp only [List.append_assoc] at hp
      rcases List.mem_append.mp hp with h | h
      · rw [(memberSourceTable_mem tn q p h).1]; decide
      rcases List.mem_append.mp h with h | h
      · rw [(memberSeq_mem fl q _ agg ha p h).1]; decide
      rcases List.mem_append.mp h with h | h
      · rw [(memberSeq_mem fl q _ br hb p h).1]; decide
      rcases List.mem_append.mp h with h | h
      · rw [(memberFilter_mem fl q p h).1]; decide
      rcases List.mem_append.mp h with h | h
      · rw [(memberSeq_mem fl q _ ob ho p h).1]; decide
      rcases List.mem_append.mp h with h | h
      · rw [(memberJoins_mem tn fl q js hj p h).1]; decide
      rcases List.mem_append.mp h with h | h
      · rw [(memberSeq_mem fl q _ fs hf p h).1]; decide
      rcases List.mem_append.mp h with h | h
      · rw [hml] at h; simp at h
      · rw [(memberExprs_mem fl q p h).1]; decide

/-- C9 witness: a query with `source-table`, a nonzero `limit` and an
unsupported member keeps no invented keys and copies the limit. -/
theorem C9_member_narrowing_witness :
    ((getProp (Json.obj [("source-table", .str "table_2"), ("limit", .num 100)]) "joins").isSome →
      (getProp (Json.obj [("source-table", .num 2), ("limit", .num 100), ("unsupported", .num 1)]) "joins").isSome)
    ∧ getProp (Json.obj [("source-table", .str "table_2"), ("limit", .num 100)]) "limit"
      = some (.num 100) :=
  ⟨(C9_member_narrowing (fun _ => none) (fun _ => none)
      (.obj [("source-table", .num 2), ("limit", .num 100), ("unsupported", .num 1)])
      (.obj [("source-table", .str "table_2"), ("limit", .num 100)]) (by decide)).1 "joins",
    (C9_member_narrowing (fun _ => none) (fun _ => none)
      (.obj [("source-table", .num 2), ("limit", .num 100), ("unsupported", .num 1)])
      (.obj [("source-table", .str "table_2"), ("limit", .num 100)]) (by decide)).2.1 100
      (by decide) (by decide)⟩


/-- C7: for every dashboard parameter list and dashcard, the audit computes
`connected_params` as the `parameter_id` of every entry of the dashcard's
`parameter_mappings` (empty when absent), `missing_params` as the dashboard
parameter ids not among them with dashboard order preserved (a sublist of
`parameterIds`), and an audit row appears in the cards-with-issues subset
exactly when its `missing_params` or `errors` list is non-empty. -/
theorem C7_audit_partition (parameterIds : List String) (dc : AuditDashcard) :
    (auditCard parameterIds dc).connected_params
        = (dc.parameter_mappings.getD []).map PMapping.parameter_id
    ∧ (∀ pid, pid ∈ (auditCard parameterIds dc).missing_params ↔
        pid ∈ parameterIds ∧ pid ∉ (auditCard parameterIds dc).connected_params)
    ∧ List.Sublist (auditCard parameterIds dc).missing_params parameterIds
    ∧ (∀ (dcs : List AuditDashcard) (a : CardAuditEntry),
        a ∈ auditReport parameterIds dcs →
        (a ∈ cardsWithIssues parameterIds dcs ↔
          (a.missing_params ≠ [] ∨ a.errors ≠ []))) := by
  refine ⟨rfl, ?_, ?_, ?_⟩
  · intro pid
    simp [auditCard, List.mem_filter]
  · exact List.filter_sublist _
  · intro dcs a ha
    unfold cardsWithIssues
    rw [List.mem_filter]
    constructor
    · intro h
      have := h.2
      simp only [Bool.or_eq_true, Bool.not_eq_true', List.isEmpty_eq_false] at this
      rcases this with h1 | h2
      · exact Or.inl h1
      · exact Or.inr h2
    · intro h
      refine ⟨ha, ?_⟩
      simp only [Bool.or_eq_true, Bool.not_eq_true', List.isEmpty_eq_false]
      exact h

/-- C7 witness: the audit applied to a dashboard with parameters `p1`, `p2`
and one dashcard connecting only `p1`: that card's `missing_params` contains
`"p2"` and it appears in the cards-with-issues subset. -/
theorem C7_audit_partition_witness :
    ("p2" ∈ (auditCard ["p1", "p2"]
        ⟨.num 1, .num 1, .obj [], some [⟨"p1", some (.obj [])⟩]⟩).missing_params ↔
      ("p2" ∈ ["p1", "p2"] ∧ "p2" ∉ (auditCard ["p1", "p2"]
        ⟨.num 1, .num 1, .obj [], some [⟨"p1", some (.obj [])⟩]⟩).connected_params))
    ∧ (auditCard ["p1", "p2"] ⟨.num 1, .num 1, .obj [], some [⟨"p1", some (.obj [])⟩]⟩
        ∈ cardsWithIssues ["p1", "p2"]
          [⟨.num 1, .num 1, .obj [], some [⟨"p1", some (.obj [])⟩]⟩] ↔
      ((auditCard ["p1", "p2"]
          ⟨.num 1, .num 1, .obj [], some [⟨"p1", some (.obj [])⟩]⟩).missing_params ≠ []
        ∨ (auditCard ["p1", "p2"]
          ⟨.num 1, .num 1, .obj [], some [⟨"p1", some (.obj [])⟩]⟩).errors ≠ [])) :=
  ⟨(C7_audit_partition ["p1", "p2"]
      ⟨.num 1, .num 1, .obj [], some [⟨"p1", some (.obj [])⟩]⟩).2.1 "p2",
    (C7_audit_partition ["p1", "p2"]
      ⟨.num 1, .num 1, .obj [], some [⟨"p1", some (.obj [])⟩]⟩).2.2.2
      [⟨.num 1, .num 1, .obj [], some [⟨"p1", some (.obj [])⟩]⟩] _
      (List.mem_singleton_self _)⟩

/-- C8 counterexample: a mapping whose target is present but falsy (here the
number `0`, a shape that is neither absent nor a dimension sequence) IS
flagged — `if (!m.target)` is a truthiness test — contradicting the claim
that targets of any other shape produce no structural error. -/
theorem C8_counterexample :
    mappingEntryErrors ⟨"p1", some (.num 0)⟩
      = ["Parameter \x27p1\x27 has no target"] := by
  decide

/-- C8 (amended): a mapping is flagged with a no-target error when its
target is absent or falsy (null, false, 0, or the empty string); when the
target is a sequence headed by the literal `"dimension"`, it is flagged with
an error naming the mapping's parameter exactly when no element of the
target is an object bearing a `stage-number` key; present truthy targets of
any other shape produce no structural error. -/
theorem C8_stage_number_rule (m : PMapping) :
    (m.target = none → mappingEntryErrors m
        = ["Parameter \x27" ++ m.parameter_id ++ "\x27 has no target"])
    ∧ (∀ t, m.target = some t → jsTruthy t = false → mappingEntryErrors m
        = ["Parameter \x27" ++ m.parameter_id ++ "\x27 has no target"])
    ∧ (∀ t, m.target = some t → isDimensionTarget t = true → mappingEntryErrors m
        = (if hasStageNumber t then []
          else ["Parameter \x27" ++ m.parameter_id
            ++ "\x27 missing stage-number (MBQL cards require this)"]))
    ∧ (∀ t, m.target = some t → jsTruthy t = true → isDimensionTarget t = false →
        mappingEntryErrors m = []) := by
  refine ⟨?_, ?_, ?_, ?_⟩
  · intro h
    unfold mappingEntryErrors
    rw [h]
  · intro t h hf
    unfold mappingEntryErrors
    rw [h]
    dsimp only
    rw [if_pos hf]
  · intro t h hd
    have htr : jsTruthy t = true := by
      cases t
      case arr xs => simp [jsTruthy]
      all_goals simp [isDimensionTarget] at hd
    unfold mappingEntryErrors
    rw [h]
    dsimp only
    rw [if_neg (by simp [htr]), if_pos hd]
  · intro t h htr hd
    unfold mappingEntryErrors
    rw [h]
    dsimp only
    rw [if_neg (by simp [htr]), if_neg (by simp [hd])]

/-- C8 witness: `["dimension", ["field", 10, null]]` (no stage-number object)
is flagged with an error naming `p1`; adding `{"stage-number": 0}` clears
it; and an ordinary `["variable", ...]`-style target is never flagged. -/
theorem C8_stage_number_rule_witness :
    mappingEntryErrors ⟨"p1", some (.arr [.str "dimension",
        .arr [.str "field", .num 10, .nul]])⟩
      = (if hasStageNumber (.arr [.str "dimension", .arr [.str "field", .num 10, .nul]])
        then []
        else ["Parameter \x27p1\x27 missing stage-number (MBQL cards require this)"])
    ∧ mappingEntryErrors ⟨"p1", some (.arr [.str "dimension",
        .arr [.str "field", .num 10, .nul], .obj [("stage-number", .num 0)]])⟩
      = (if hasStageNumber (.arr [.str "dimension", .arr [.str "field", .num 10, .nul],
            .obj [("stage-number", .num 0)]])
        then []
        else ["Parameter \x27p1\x27 missing stage-number (MBQL cards require this)"])
    ∧ mappingEntryErrors ⟨"p1", some (.arr [.str "variable",
        .arr [.str "template-tag", .str "x"]])⟩ = [] :=
  ⟨(C8_stage_number_rule ⟨"p1", _⟩).2.2.1 _ rfl (by decide),
    (C8_stage_number_rule ⟨"p1", _⟩).2.2.1 _ rfl (by decide),
    (C8_stage_number_rule ⟨"p1", _⟩).2.2.2 _ rfl (by decide) (by decide)⟩


/-- C3 counterexample: a native card whose `dataset_query.native.query` is
the empty string gets `sql: null` in its summary — `native.query || null`
collapses the falsy empty string — so the output is not byte-identical to
the input for every string content. -/
theorem C3_counterexample :
    (summarizeDashcard (fun _ => none) (fun _ => none) (fun _ => none)
        ⟨.num 5, .num 1, .nul, .nul,
          .obj [("name", .str "c"), ("dataset_query", .obj [("database", .num 1),
            ("type", .str "native"),
            ("native", .obj [("query", .str "")])])]⟩).bind
        (fun out => getProp out "sql")
      = some Json.nul := by
  decide

/-- C3 (amended): for every dashcard with a truthy `card_id` and
`dataset_query.type = "native"`, the summary's `sql` member is byte-identical
to `dataset_query.native.query` for every NON-EMPTY string content (an empty
or absent query yields `null` instead), and its `template_tags` member lists
exactly the keys of the `template-tags` object (empty when the member is
absent). -/
theorem C3_native_verbatim (tn : Int → Option String) (fl : Int → Option FieldInfo)
    (tabL : Int → Option String) (dc : ExtractDashcard) (dq nat : Json) (s : String)
    (hc : jsTruthy dc.card_id = true)
    (hdq : getProp dc.card "dataset_query" = some dq)
    (hty : getProp dq "type" = some (.str "native"))
    (hnat : getProp dq "native" = some nat)
    (hql : getProp nat "query" = some (.str s)) (hs : s ≠ "") :
    ∃ out, summarizeDashcard tn fl tabL dc = some out
      ∧ getProp out "sql" = some (.str s)
      ∧ (∀ kvs, getProp nat "template-tags" = some (.obj kvs) →
          getProp out "template_tags" = some (.arr (kvs.map (fun p => Json.str p.1))))
      ∧ (getProp nat "template-tags" = none →
          getProp out "template_tags" = some (.arr [])) := by
  unfold summarizeDashcard
  rw [if_neg (by simp [hc])]
  have hjg : jsGet dc.card "dataset_query" = dq := by simp [jsGet, hdq]
  rw [if_pos (by
    rw [hjg]
    simp [jsGet, hty, Json.beq])]
  have h2 : jsGet (jsGet (jsGet dc.card "dataset_query") "native") "query"
      = .str s := by
    rw [hjg]
    simp [jsGet, hnat, hql]
  refine ⟨_, rfl, ?_, ?_, ?_⟩
  · rw [h2]
    simp [getProp, jsOrNull, jsTruthy, hs]
  · intro kvs hk
    have h3 : jsGet (jsGet (jsGet dc.card "dataset_query") "native") "template-tags"
        = .obj kvs := by
      rw [hjg]
      simp [jsGet, hnat, hk]
    rw [h3]
    simp [getProp, jsTruthy, jsObjectKeys]
  · intro hk
    have h3 : jsGet (jsGet (jsGet dc.card "dataset_query") "native") "template-tags"
        = Json.nul := by
      rw [hjg]
      simp [jsGet, hnat, hk]
    rw [h3]
    simp [getProp, jsTruthy]

/-- C3 witness: a native card with query `"SELECT 1"` and one template tag
`x` keeps the SQL verbatim and lists the tag name. -/
theorem C3_native_verbatim_witness :
    ∃ out, summarizeDashcard (fun _ => none) (fun _ => none) (fun _ => none)
        ⟨.num 5, .num 7, .nul, .nul,
          .obj [("name", .str "c"), ("dataset_query", .obj [("database", .num 1),
            ("type", .str "native"),
            ("native", .obj [("query", .str "SELECT 1"),
              ("template-tags", .obj [("x", .obj [])])])])]⟩ = some out
      ∧ getProp out "sql" = some (.str "SELECT 1")
      ∧ (∀ kvs, getProp (.obj [("query", .str "SELECT 1"),
            ("template-tags", .obj [("x", .obj [])])]) "template-tags" = some (.obj kvs) →
          getProp out "template_tags" = some (.arr (kvs.map (fun p => Json.str p.1))))
      ∧ (getProp (.obj [("query", .str "SELECT 1"),
            ("template-tags", .obj [("x", .obj [])])]) "template-tags" = none →
          getProp out "template_tags" = some (.arr [])) :=
  C3_native_verbatim (fun _ => none) (fun _ => none) (fun _ => none)
    ⟨.num 5, .num 7, .nul, .nul,
      .obj [("name", .str "c"), ("dataset_query", .obj [("database", .num 1),
        ("type", .str "native"),
        ("native", .obj [("query", .str "SELECT 1"),
          ("template-tags", .obj [("x", .obj [])])])])]⟩
    (.obj [("database", .num 1), ("type", .str "native"),
      ("native", .obj [("query", .str "SELECT 1"),
        ("template-tags", .obj [("x", .obj [])])])])
    (.obj [("query", .str "SELECT 1"), ("template-tags", .obj [("x", .obj [])])])
    "SELECT 1" (by decide) (by decide) (by decide) (by decide) (by decide) (by decide)


theorem mem_insertNew {α : Type} [DecidableEq α] (acc : List α) (i x : α) :
    x ∈ insertNew acc i ↔ x ∈ acc ∨ x = i := by
  unfold insertNew
  by_cases h : i ∈ acc
  · rw [if_pos h]
    constructor
    · exact Or.inl
    · rintro (h1 | rfl)
      · exact h1
      · exact h
  · rw [if_neg h]
    simp

theorem nodup_insertNew {α : Type} [DecidableEq α] (acc : List α) (i : α)
    (h : acc.Nodup) : (insertNew acc i).Nodup := by
  unfold insertNew
  by_cases hi : i ∈ acc
  · rw [if_pos hi]; exact h
  · rw [if_neg hi]
    simp [List.nodup_append, h, hi]

theorem mem_foldl_insertNew {α : Type} [DecidableEq α] :
    ∀ (l acc : List α) (x : α), x ∈ l.foldl insertNew acc ↔ x ∈ acc ∨ x ∈ l
  | [], acc, x => by simp
  | i :: l, acc, x => by
    rw [List.foldl_cons, mem_foldl_insertNew l _ x, mem_insertNew]
    simp [or_assoc, or_comm, or_left_comm]

theorem nodup_foldl_insertNew {α : Type} [DecidableEq α] :
    ∀ (l acc : List α), acc.Nodup → (l.foldl insertNew acc).Nodup
  | [], _, h => h
  | i :: l, acc, h => by
    rw [List.foldl_cons]
    exact nodup_foldl_insertNew l _ (nodup_insertNew acc i h)

theorem joinEntryId_eq (j : Json) (x : Int) :
    ((match getProp j "source-table" with
      | some (Json.num id) => if id != 0 then some id else none
      | _ => none) = some x) ↔
    (getProp j "source-table" = some (.num x) ∧ x ≠ 0) := by
  rcases h : getProp j "source-table" with _ | v
  · simp
  · cases v <;> simp
    rename_i n
    by_cases hn : n = 0
    · subst hn
      simp
      omega
    · simp [hn]
      rintro rfl
      exact hn

theorem joinRefId_eq (j : Json) (x : Int) :
    ((match getProp j "source-table" with
      | some (Json.num id) => some id
      | _ => none) = some x) ↔
    getProp j "source-table" = some (.num x) := by
  rcases h : getProp j "source-table" with _ | v
  · simp
  · cases v <;> simp

theorem sourceTableId_eq_some (dc : ExtractDashcard) (x : Int) :
    sourceTableId dc = some x ↔
      ((dashcardQuery dc).bind (fun q => getProp q "source-table")
          = some (.num x) ∧ x ≠ 0) := by
  unfold sourceTableId
  rcases h : (dashcardQuery dc).bind (fun q => getProp q "source-table") with _ | v
  · simp
  · cases v <;> simp
    rename_i n
    by_cases hn : n = 0
    · subst hn
      simp
      omega
    · simp [hn]
      rintro rfl
      exact hn

theorem mem_referencedTableIds (dc : ExtractDashcard) (x : Int) :
    x ∈ referencedTableIds dc ↔
      ((dashcardQuery dc).bind (fun q => getProp q "source-table")
          = some (.num x)
        ∨ ∃ jv, (dashcardQuery dc).bind (fun q => getProp q "joins")
            = some (Json.arr jv)
          ∧ ∃ j ∈ jv, getProp j "source-table" = some (.num x)) := by
  unfold referencedTableIds
  rw [List.mem_append]
  have h1 : (x ∈ (match (dashcardQuery dc).bind (fun q => getProp q "source-table") with
      | some (Json.num id) => [id]
      | _ => [])) ↔
      (dashcardQuery dc).bind (fun q => getProp q "source-table") = some (.num x) := by
    rcases h : (dashcardQuery dc).bind (fun q => getProp q "source-table") with _ | v
    · simp
    · cases v <;> simp
      exact eq_comm
  have h2 : (x ∈ (match (dashcardQuery dc).bind (fun q => getProp q "joins") with
      | some (Json.arr js) => js.filterMap (fun j =>
          match getProp j "source-table" with
          | some (Json.num id) => some id
          | _ => none)
      | _ => [])) ↔
      (∃ jv, (dashcardQuery dc).bind (fun q => getProp q "joins")
          = some (Json.arr jv)
        ∧ ∃ j ∈ jv, getProp j "source-table" = some (.num x)) := by
    rcases h : (dashcardQuery dc).bind (fun q => getProp q "joins") with _ | w
    · simp
    · cases w <;> simp [List.mem_filterMap, joinRefId_eq]
  rw [h1, h2]

theorem mem_joinTableIds (dc : ExtractDashcard) (js : List Int) (x : Int)
    (hj : joinTableIds dc = some js) :
    x ∈ js ↔
      (x ≠ 0 ∧ ∃ jv, (dashcardQuery dc).bind (fun q => getProp q "joins")
          = some (Json.arr jv)
        ∧ ∃ j ∈ jv, getProp j "source-table" = some (.num x)) := by
  unfold joinTableIds at hj
  rcases hjv : (dashcardQuery dc).bind (fun q => getProp q "joins") with _ | w
  · rw [hjv] at hj
    simp only [Option.some.injEq] at hj
    subst hj
    simp
  · rw [hjv] at hj
    dsimp only at hj
    by_cases htr : jsTruthy w = true
    · rw [if_pos htr] at hj
      cases w with
      | arr ws =>
        dsimp only at hj
        simp only [Option.some.injEq] at hj
        subst hj
        simp only [List.mem_filterMap, joinEntryId_eq]
        constructor
        · rintro ⟨j, hji, hgp, hx⟩
          exact ⟨hx, ws, rfl, j, hji, hgp⟩
        · rintro ⟨hx, jv, hw, j, hji, hgp⟩
          simp only [Option.some.injEq, Json.arr.injEq] at hw
          subst hw
          exact ⟨j, hji, hgp, hx⟩
      | nul => dsimp only at hj; exact absurd hj (by simp)
      | bool b => dsimp only at hj; exact absurd hj (by simp)
      | num n => dsimp only at hj; exact absurd hj (by simp)
      | str t => dsimp only at hj; exact absurd hj (by simp)
      | obj kvs => dsimp only at hj; exact absurd hj (by simp)
    · rw [if_neg htr] at hj
      simp only [Option.some.injEq] at hj
      subst hj
      simp only [List.not_mem_nil, false_iff]
      rintro ⟨hx, jv, hw, j, hji, hgp⟩
      simp only [Option.some.injEq] at hw
      subst hw
      exact htr rfl

theorem mem_contrib (dc : ExtractDashcard) (js : List Int) (x : Int)
    (hj : joinTableIds dc = some js) :
    (sourceTableId dc = some x ∨ x ∈ js) ↔
      (x ≠ 0 ∧ x ∈ referencedTableIds dc) := by
  rw [sourceTableId_eq_some, mem_joinTableIds dc js x hj, mem_referencedTableIds]
  tauto


/-- The table-id collection step function of `collectTableIds`. -/
theorem collect_foldl_none :
    ∀ dcs : List ExtractDashcard,
      dcs.foldl
        (fun acc dc =>
          acc.bind (fun ids =>
            (joinTableIds dc).map (fun js =>
              js.foldl insertNew
                (match sourceTableId dc with
                  | some i => insertNew ids i
                  | none => ids)))) none = none
  | [] => rfl
  | dc :: dcs => by
    rw [List.foldl_cons]
    exact collect_foldl_none dcs

set_option maxHeartbeats 1000000 in
theorem collect_invariant :
    ∀ (dcs : List ExtractDashcard) (acc ids : List Int),
      dcs.foldl
        (fun acc dc =>
          acc.bind (fun ids =>
            (joinTableIds dc).map (fun js =>
              js.foldl insertNew
                (match sourceTableId dc with
                  | some i => insertNew ids i
                  | none => ids)))) (some acc) = some ids →
      (acc.Nodup → ids.Nodup)
      ∧ (∀ x, x ∈ ids ↔ x ∈ acc ∨ ∃ dc ∈ dcs, x ≠ 0 ∧ x ∈ referencedTableIds dc)
  | [], acc, ids => by
    intro h
    simp only [List.foldl_nil, Option.some.injEq] at h
    subst h
    simp
  | dc :: dcs, acc, ids => by
    intro h
    rw [List.foldl_cons] at h
    simp only [Option.some_bind] at h
    rcases hj : joinTableIds dc with _ | js
    · rw [hj] at h
      simp only [Option.map_none'] at h
      rw [collect_foldl_none dcs] at h
      exact absurd h (by simp)
    · rw [hj] at h
      simp only [Option.map_some'] at h
      obtain ⟨hnd, hmem⟩ := collect_invariant dcs _ ids h
      constructor
      · intro hacc
        apply hnd
        apply nodup_foldl_insertNew
        rcases hst : sourceTableId dc with _ | i
        · exact hacc
        · exact nodup_insertNew acc i hacc
      · intro x
        rw [hmem x, mem_foldl_insertNew]
        have hbase : (x ∈ (match sourceTableId dc with
            | some i => insertNew acc i
            | none => acc)) ↔ (x ∈ acc ∨ sourceTableId dc = some x) := by
          rcases hst : sourceTableId dc with _ | i
          · simp
          · rw [mem_insertNew]
            constructor
            · rintro (h1 | rfl)
              · exact Or.inl h1
              · exact Or.inr rfl
            · rintro (h1 | h2)
              · exact Or.inl h1
              · simp only [Option.some.injEq] at h2
                exact Or.inr h2.symm
        rw [hbase]
        have hcons : (∃ d ∈ dc :: dcs, x ≠ 0 ∧ x ∈ referencedTableIds d) ↔
            ((x ≠ 0 ∧ x ∈ referencedTableIds dc)
              ∨ ∃ d ∈ dcs, x ≠ 0 ∧ x ∈ referencedTableIds d) := by
          simp [List.mem_cons, or_and_right, exists_or]
        rw [hcons, ← mem_contrib dc js x hj]
        tauto

/-- C4 counterexample: a dashcard referencing table id 0 through its
`source-table` member causes no fetch at all — the collection guard
`query['source-table'] && typeof ... === 'number'` is falsy at 0 — so the
Metadata Fetcher is not invoked once per referenced id. -/
theorem C4_counterexample :
    collectTableIds [⟨.num 1, .num 1, .nul, .nul,
        .obj [("dataset_query", .obj [("query",
          .obj [("source-table", .num 0)])])]⟩] = some []
    ∧ 0 ∈ referencedTableIds ⟨.num 1, .num 1, .nul, .nul,
        .obj [("dataset_query", .obj [("query",
          .obj [("source-table", .num 0)])])]⟩ := by
  constructor
  · decide
  · decide

/-- C4 (amended): the fetch loop iterates exactly the collected id list, so
the Metadata Fetcher is invoked exactly once per distinct NONZERO table id
referenced across all cards' `source-table` and `joins[].source-table`
members, and never for any other id: the collected list is duplicate-free
and contains an id exactly when it is nonzero and referenced (count 1 there,
count 0 everywhere else). -/
theorem C4_fetch_once_per_table (dcs : List ExtractDashcard) (ids : List Int)
    (h : collectTableIds dcs = some ids) :
    ids.Nodup
    ∧ (∀ x, x ∈ ids ↔ x ≠ 0 ∧ ∃ dc ∈ dcs, x ∈ referencedTableIds dc)
    ∧ (∀ x, ids.count x = if x ≠ 0 ∧ ∃ dc ∈ dcs, x ∈ referencedTableIds dc
        then 1 else 0) := by
  unfold collectTableIds at h
  obtain ⟨hnd, hmem⟩ := collect_invariant dcs [] ids h
  have hnd2 := hnd List.nodup_nil
  have hmem2 : ∀ x, x ∈ ids ↔ x ≠ 0 ∧ ∃ dc ∈ dcs, x ∈ referencedTableIds dc := by
    intro x
    rw [hmem x]
    simp only [List.not_mem_nil, false_or]
    constructor
    · rintro ⟨dc, hdc, hx, hr⟩
      exact ⟨hx, dc, hdc, hr⟩
    · rintro ⟨hx, dc, hdc, hr⟩
      exact ⟨dc, hdc, hx, hr⟩
  refine ⟨hnd2, hmem2, ?_⟩
  intro x
  by_cases hx : x ≠ 0 ∧ ∃ dc ∈ dcs, x ∈ referencedTableIds dc
  · rw [if_pos hx]
    have hmx : x ∈ ids := (hmem2 x).mpr hx
    exact List.count_eq_one_of_mem hnd2 hmx
  · rw [if_neg hx]
    have hmx : x ∉ ids := fun hc => hx ((hmem2 x).mp hc)
    exact List.count_eq_zero_of_not_mem hmx

/-- C4 witness: five structured cards all referencing table 2 (one also via a
join) yield the single-element fetch list `[2]` — table 2 is fetched exactly
once. -/
theorem C4_fetch_once_per_table_witness :
    [(2 : Int)].Nodup
    ∧ ((2 : Int) ∈ [(2 : Int)] ↔ (2 : Int) ≠ 0
        ∧ ∃ dc ∈ (List.replicate 5 (⟨.num 1, .num 1, .nul, .nul,
            .obj [("dataset_query", .obj [("query",
              .obj [("source-table", .num 2),
                ("joins", .arr [.obj [("source-table", .num 2)]])])])]⟩ :
              ExtractDashcard)), (2 : Int) ∈ referencedTableIds dc)
    ∧ (List.count 2 [(2 : Int)] = 1) := by
  have h := C4_fetch_once_per_table
    (List.replicate 5 (⟨.num 1, .num 1, .nul, .nul,
      .obj [("dataset_query", .obj [("query",
        .obj [("source-table", .num 2),
          ("joins", .arr [.obj [("source-table", .num 2)]])])])]⟩ : ExtractDashcard))
    [2] (by decide)
  refine ⟨h.1, h.2.1 2, ?_⟩
  have := h.2.2 2
  rw [this]
  rw [if_pos]
  refine ⟨by decide, ?_⟩
  refine ⟨_, List.mem_replicate.mpr ⟨by decide, rfl⟩, by decide⟩


theorem memberSeq_isSome_ext (fl fl2 : Int → Option FieldInfo) (q : Json) (key : String) :
    (memberSeq fl q key).isSome = (memberSeq fl2 q key).isSome := by
  unfold memberSeq
  rcases h : getProp q key with _ | v
  · rfl
  · dsimp only
    by_cases htr : jsTruthy v = true
    · rw [if_pos htr, if_pos htr]
      cases v <;> rfl
    · rw [if_neg htr, if_neg htr]

theorem memberJoins_isSome_ext (tn tn2 : Int → Option String)
    (fl fl2 : Int → Option FieldInfo) (q : Json) :
    (memberJoins tn fl q).isSome = (memberJoins tn2 fl2 q).isSome := by
  unfold memberJoins
  rcases h : getProp q "joins" with _ | v
  · rfl
  · dsimp only
    by_cases htr : jsTruthy v = true
    · rw [if_pos htr, if_pos htr]
      cases v <;> rfl
    · rw [if_neg htr, if_neg htr]

/-- Whether `resolveMbql` fails depends only on the shape of the query, not
on the lookup tables. -/
theorem resolveMbql_isSome_ext (tn tn2 : Int → Option String)
    (fl fl2 : Int → Option FieldInfo) (q : Json) :
    (resolveMbql tn fl q).isSome = (resolveMbql tn2 fl2 q).isSome := by
  unfold resolveMbql
  by_cases hq : jsTruthy q = false
  · rw [if_pos hq, if_pos hq]
  · rw [if_neg hq, if_neg hq]
    have ha := memberSeq_isSome_ext fl fl2 q "aggregation"
    have hb := memberSeq_isSome_ext fl fl2 q "breakout"
    have ho := memberSeq_isSome_ext fl fl2 q "order-by"
    have hj := memberJoins_isSome_ext tn tn2 fl fl2 q
    have hf := memberSeq_isSome_ext fl fl2 q "fields"
    rcases h1 : memberSeq fl q "aggregation" with _ | agg <;>
      rcases h2 : memberSeq fl2 q "aggregation" with _ | agg2 <;>
      rw [h1, h2] at ha <;> simp at ha <;> try rfl
    rcases h3 : memberSeq fl q "breakout" with _ | br <;>
      rcases h4 : memberSeq fl2 q "breakout" with _ | br2 <;>
      rw [h3, h4] at hb <;> simp at hb <;> try rfl
    rcases h5 : memberSeq fl q "order-by" with _ | ob <;>
      rcases h6 : memberSeq fl2 q "order-by" with _ | ob2 <;>
      rw [h5, h6] at ho <;> simp at ho <;> try rfl
    rcases h7 : memberJoins tn fl q with _ | js <;>
      rcases h8 : memberJoins tn2 fl2 q with _ | js2 <;>
      rw [h7, h8] at hj <;> simp at hj <;> try rfl
    rcases h9 : memberSeq fl q "fields" with _ | fs <;>
      rcases h10 : memberSeq fl2 q "fields" with _ | fs2 <;>
      rw [h9, h10] at hf <;> simp at hf <;> try rfl

/-- Whether a dashcard summary fails depends only on the dashcard, not on
the lookups built from the fetched metadata. -/
theorem summarizeDashcard_isSome_ext (tn tn2 : Int → Option String)
    (fl fl2 : Int → Option FieldInfo) (tabL : Int → Option String)
    (dc : ExtractDashcard) :
    (summarizeDashcard tn fl tabL dc).isSome
      = (summarizeDashcard tn2 fl2 tabL dc).isSome := by
  unfold summarizeDashcard
  by_cases hc : jsTruthy dc.card_id = false
  · rw [if_pos hc, if_pos hc]
  · rw [if_neg hc, if_neg hc]
    by_cases hty : Json.beq (jsGet (jsGet dc.card "dataset_query") "type")
        (.str "native") = true
    · rw [if_pos hty, if_pos hty]
    · rw [if_neg hty, if_neg hty]
      simp only [Option.isSome_map']
      exact resolveMbql_isSome_ext tn tn2 fl fl2 _

theorem mapM_isSome_ext {α β : Type} (f g : α → Option β) :
    ∀ l : List α, (∀ a ∈ l, (f a).isSome = (g a).isSome) →
      (l.mapM f).isSome = (l.mapM g).isSome
  | [], _ => rfl
  | a :: l, h => by
    rw [List.mapM_cons, List.mapM_cons]
    have ha := h a (by simp)
    have hl := mapM_isSome_ext f g l (fun b hb => h b (by simp [hb]))
    rcases h1 : f a with _ | b <;> rcases h2 : g a with _ | b2 <;> rw [h1, h2] at ha
    · rfl
    · simp at ha
    · simp at ha
    · rcases h3 : l.mapM f with _ | bs <;> rcases h4 : l.mapM g with _ | bs2 <;>
        rw [h3, h4] at hl
      · rfl
      · simp at hl
      · simp at hl
      · rfl

/-- C5: a failed metadata fetch for one table id does not fail the
extraction and is isolated to that id: (1) the id is bound to the placeholder
name; (2) the field lookup is exactly the one built from the remaining ids
(the failed table contributes no fields); (3) the name bound to every other
id is unaffected by what the fetcher returns for the failed id; (4) the
placeholder appears in the de-duplicated, sorted `tables_used` output; and
(5) whether the whole extraction succeeds never depends on the fetcher's
answers at all. -/
theorem C5_fetch_failure_isolated (fetch : Int → Option TableMeta)
    (ids : List Int) (id : Int) (hmem : id ∈ ids) (hf : fetch id = none) :
    tableNamesMap fetch ids id = some ("unknown_table_" ++ toString id)
    ∧ buildFieldLookup fetch ids
        = buildFieldLookup fetch (ids.filter (fun i => i != id))
    ∧ (∀ fetch2 : Int → Option TableMeta, (∀ k, k ≠ id → fetch2 k = fetch k) →
        ∀ j ∈ ids, j ≠ id → tableNamesMap fetch2 ids j = tableNamesMap fetch ids j)
    ∧ ("unknown_table_" ++ toString id) ∈ tablesUsed fetch ids
    ∧ (∀ (tabL : Int → Option String) (dcs : List ExtractDashcard)
        (fetch2 : Int → Option TableMeta),
        (extractDashboardQueries fetch tabL dcs).isSome
          = (extractDashboardQueries fetch2 tabL dcs).isSome) := by
  refine ⟨?_, ?_, ?_, ?_, ?_⟩
  · unfold tableNamesMap
    rw [if_pos hmem]
    unfold perIdName
    rw [hf]
  · unfold buildFieldLookup
    have go : ∀ (l : List Int) (acc : Int → Option FieldInfo),
        l.foldl
          (fun acc i =>
            match fetch i with
            | none => acc
            | some m =>
              m.fields.foldl
                (fun acc2 f => fun k =>
                  if k = f.1 then some ⟨f.2, qualifiedName i m⟩ else acc2 k)
                acc) acc
        = (l.filter (fun i => i != id)).foldl
          (fun acc i =>
            match fetch i with
            | none => acc
            | some m =>
              m.fields.foldl
                (fun acc2 f => fun k =>
                  if k = f.1 then some ⟨f.2, qualifiedName i m⟩ else acc2 k)
                acc) acc := by
      intro l
      induction l with
      | nil => intro acc; rfl
      | cons i l ih =>
        intro acc
        by_cases hi : i = id
        · subst hi
          rw [List.foldl_cons, List.filter_cons]
          simp only [bne_self_eq_false, Bool.false_eq_true, if_false]
          rw [hf]
          exact ih acc
        · rw [List.foldl_cons, List.filter_cons]
          have : (i != id) = true := by simp [hi]
          rw [this]
          simp only [if_true]
          rw [List.foldl_cons]
          exact ih _
    exact go ids _
  · intro fetch2 hagree j hj hne
    unfold tableNamesMap
    rw [if_pos hj, if_pos hj]
    unfold perIdName
    rw [hagree j hne]
  · unfold tablesUsed
    rw [List.mem_mergeSort, mem_foldl_insertNew]
    refine Or.inr (List.mem_map.mpr ⟨id, hmem, ?_⟩)
    unfold perIdName
    rw [hf]
  · intro tabL dcs fetch2
    unfold extractDashboardQueries
    rcases hc : collectTableIds dcs with _ | cids
    · rfl
    · simp only [Option.some_bind, Option.isSome_map']
      exact mapM_isSome_ext _ _ dcs (fun dc _ =>
        summarizeDashcard_isSome_ext _ _ _ _ tabL dc)

/-- C5 witness: with ids `[1, 2]` where the fetch of table 2 fails, table 2
is bound to `"unknown_table_2"`, the placeholder shows up in `tables_used`,
and extraction succeeds regardless of the fetcher. -/
theorem C5_fetch_failure_isolated_witness :
    tableNamesMap (fun i => if i = 1 then some ⟨"orders", "public", [(10, "ID")]⟩ else none)
        [1, 2] 2 = some "unknown_table_2"
    ∧ buildFieldLookup (fun i => if i = 1 then some ⟨"orders", "public", [(10, "ID")]⟩ else none)
        [1, 2]
      = buildFieldLookup (fun i => if i = 1 then some ⟨"orders", "public", [(10, "ID")]⟩ else none)
        ([1, 2].filter (fun i => i != 2))
    ∧ ("unknown_table_2" ∈ tablesUsed
        (fun i => if i = 1 then some ⟨"orders", "public", [(10, "ID")]⟩ else none) [1, 2])
    ∧ ((extractDashboardQueries
          (fun i => if i = 1 then some ⟨"orders", "public", [(10, "ID")]⟩ else none)
          (fun _ => none) []).isSome
        = (extractDashboardQueries (fun _ => none) (fun _ => none) []).isSome) := by
  have h := C5_fetch_failure_isolated
    (fun i => if i = 1 then some ⟨"orders", "public", [(10, "ID")]⟩ else none)
    [1, 2] 2 (by decide) (by decide)
  exact ⟨h.1, h.2.1, h.2.2.2.1, h.2.2.2.2 (fun _ => none) [] (fun _ => none)⟩

